import Mathlib

/-!
Shallow embedding of `pkg/k3s/etcd_client_generator.go` from the
cluster-api-k3s repository, together with proofs about the candidate
resolution algorithms `forFirstAvailableNode`, `forLeader`,
`getLeaderClient` and the pod cache `findEtcdProxyPod`.

External collaborators (the Kubernetes clientset, the pod listing, the
etcd dial and membership query) are modelled by an `Env` record; the
generator's instance state plus an observation log of collaborator calls
and handle lifecycle events is a `GenState` record threaded through every
operation.
-/

namespace EtcdGen

/-- A pod as returned by the etcd-proxy pod listing: the fields the
generator reads are `pod.Spec.NodeName` and `pod.Name`. -/
structure Pod where
  nodeName : String
  podName : String
deriving DecidableEq, Repr

/-- Modelled from the spec: Member Info, "per-member identity and node
association" exposed by the consensus-store client
(`members() -> list of {id, nodeAssociation}`); the generator source reads
it only through `member.ID` and `util.NodeNameFromMember`, whose bodies
live outside the embedded core. -/
structure Member where
  id : Nat
  nodeAssociation : String
deriving DecidableEq, Repr

/-- Modelled from the spec: deriving "the leader's associated node name"
from a member (`util.NodeNameFromMember` in the source, a helper from
`pkg/etcd/util` outside the embedded core). -/
def nodeNameFromMember (m : Member) : String := m.nodeAssociation

/-- An open etcd client handle: a fresh identity for open/close
accounting, the endpoint (proxy pod name) it was dialed to, and the
`LeaderID` it reports. -/
structure EtcdClient where
  id : Nat
  endpoint : String
  leaderID : Nat
deriving DecidableEq, Repr

/-- Go error values as the generator builds and inspects them:
`errors.New`/`errors.Errorf` messages, `errors.Wrap`,
`kerrors.NewAggregate`, and the package-private sentinel
`errEtcdNodeConnection`.  Errors produced outside the package (client-go,
the etcd client library) are plain messages: being another package's
values they can never be the private sentinel. -/
inductive Err where
  | msg : String → Err
  | wrap : String → Err → Err
  | aggregate : List Err → Err
  | etcdNodeConnection : Err

/-- `errors.Is err errEtcdNodeConnection`: both `pkg/errors.Wrap` and the
k8s aggregate expose their contents to `errors.Is`, which traverses the
whole tree. -/
def Err.isConn : Err → Bool
  | .etcdNodeConnection => true
  | .msg _ => false
  | .wrap _ e => Err.isConn e
  | .aggregate [] => false
  | .aggregate (e :: es) => Err.isConn e || Err.isConn (.aggregate es)

/-- The outer message of an `errors.Wrap` value, used to state which label
a wrapped aggregate carries. -/
def Err.wrapLabel : Err → Option String
  | .wrap m _ => some m
  | _ => none

/-- `fmt` `%x` rendering of a member id (lowercase hexadecimal). -/
def goHex (n : Nat) : String := String.mk (Nat.toDigits 16 n)

/-- `fmt` `%q` rendering of a plain node name. -/
def goQuote (s : String) : String := "\"" ++ s ++ "\""

/-- Behaviour of the external collaborators consumed by the generator:
`kubernetes.NewForConfig` (clientset construction), the label-selected pod
listing, the injected dial (`createClient`), and, per dialed endpoint, the
`LeaderID` the resulting client reports and the outcome of its `Members`
query.  Failures of these collaborators are plain external messages. -/
structure Env where
  newClientsetErr : Option String
  listPods : Except String (List Pod)
  dial : String → Option String
  leaderIDOf : String → Nat
  membersOf : String → Except String (List Member)

/-- The generator's instance state — the `etcdPodMap` cache — together
with an observation log: how many clientset constructions and pod listings
happened, which endpoints were dialed (in order), which handles had their
`Members` queried, which handles were closed (in order), and the next
fresh handle identity. -/
structure GenState where
  etcdPodMap : Option (List Pod)
  nextHandle : Nat
  clientsetCalls : Nat
  listCalls : Nat
  dialCalls : List String
  membersCalls : List Nat
  closes : List Nat
deriving DecidableEq, Repr

/-- A generator state as `NewEtcdClientGenerator` returns it: no cache
built yet, empty observation log. -/
def initState : GenState :=
  { etcdPodMap := none, nextHandle := 0, clientsetCalls := 0, listCalls := 0
    dialCalls := [], membersCalls := [], closes := [] }

/-- Lookup in a node→pod Go map built by
`etcdmap[pod.Spec.NodeName] = pod.Name`: a later pod for the same node
overwrites an earlier one. -/
def mapLookup (pods : List Pod) (node : String) : Option String :=
  pods.foldl (fun acc p => if p.nodeName == node then some p.podName else acc) none

/-- The cache-miss error of `findEtcdProxyPod` (source line 97). -/
def notFoundErr (nodeName : String) : Err :=
  .msg ("unable to find etcd proxy pod for node " ++ nodeName)

/-- The clientset-construction failure (source lines 75 and 112). -/
def clientsetErr (e : String) : Err :=
  .wrap "unable to create client to target cluster" (.msg e)

/-- The pod-listing failure (source lines 80 and 117). -/
def listPodsErr (e : String) : Err :=
  .wrap "unable to list etcd-proxy pods in target cluster" (.msg e)

/-- The empty-inventory error (source line 84). -/
def emptyInventoryErr : Err :=
  .msg "there isn\u0027t any etcd-proxy pods in target cluster"

/-- The wrap label of `forFirstAvailableNode` exhaustion (source line 141). -/
def connectAnyNodeLabel : String := "could not establish a connection to any etcd node"

/-- The wrap label of `forLeader` exhaustion (source line 170). -/
def connectLeaderLabel : String := "could not establish a connection to the etcd leader"

/-- The cache-read tail of `findEtcdProxyPod` (source lines 95–100):
a miss yields the per-node not-found error. -/
def podLookup (s : GenState) (pods : List Pod) (nodeName : String) :
    Except Err String × GenState :=
  match mapLookup pods nodeName with
  | none => (.error (notFoundErr nodeName), s)
  | some podName => (.ok podName, s)

/-- `findEtcdProxyPod` (source lines 71–101): on a nil cache, build a
clientset, list the etcd-proxy pods, fail on an empty listing, otherwise
populate the cache; then answer from the cache. -/
def findEtcdProxyPod (env : Env) (s : GenState) (nodeName : String) :
    Except Err String × GenState :=
  match s.etcdPodMap with
  | some pods => podLookup s pods nodeName
  | none =>
    let s1 := { s with clientsetCalls := s.clientsetCalls + 1 }
    match env.newClientsetErr with
    | some e => (.error (clientsetErr e), s1)
    | none =>
      let s2 := { s1 with listCalls := s1.listCalls + 1 }
      match env.listPods with
      | .error e => (.error (listPodsErr e), s2)
      | .ok pods =>
        if pods.isEmpty then (.error (emptyInventoryErr), s2)
        else podLookup { s2 with etcdPodMap := some pods } pods nodeName

/-- The injected `createClient` strategy: dial the endpoint through the
proxy; on success the returned handle is fresh. -/
def createClient (env : Env) (s : GenState) (endpoint : String) :
    Except Err EtcdClient × GenState :=
  let s1 := { s with dialCalls := s.dialCalls ++ [endpoint] }
  match env.dial endpoint with
  | some e => (.error (.msg e), s1)
  | none =>
    (.ok ⟨s1.nextHandle, endpoint, env.leaderIDOf endpoint⟩,
     { s1 with nextHandle := s1.nextHandle + 1 })

/-- `client.Members(ctx)`: the membership query on an open handle. -/
def clientMembers (env : Env) (s : GenState) (cl : EtcdClient) :
    Except Err (List Member) × GenState :=
  let s1 := { s with membersCalls := s.membersCalls ++ [cl.id] }
  match env.membersOf cl.endpoint with
  | .error e => (.error (.msg e), s1)
  | .ok ms => (.ok ms, s1)

/-- `client.Close()`: record the close of a handle. -/
def closeClient (s : GenState) (cl : EtcdClient) : GenState :=
  { s with closes := s.closes ++ [cl.id] }

/-- The shared invalid-argument error for an empty candidate list (the
source uses the same text, mentioning `forLeader`, in both functions). -/
def invalidArgErr : Err :=
  .msg "invalid argument: forLeader can\u0027t be called with an empty list of nodes"

/-- The per-candidate loop of `forFirstAvailableNode` (source lines
126–141): resolve the pod, dial; record each failure and continue; return
on the first success; wrap the aggregate of all failures at the end. -/
def firstAvailLoop (env : Env) :
    GenState → List String → List Err → Except Err EtcdClient × GenState
  | s, [], errs =>
    (.error (.wrap connectAnyNodeLabel (.aggregate errs)), s)
  | s, name :: rest, errs =>
    match findEtcdProxyPod env s name with
    | (.error e, s1) => firstAvailLoop env s1 rest (errs ++ [e])
    | (.ok podName, s1) =>
      match createClient env s1 podName with
      | (.error e, s2) => firstAvailLoop env s2 rest (errs ++ [e])
      | (.ok client, s2) => (.ok client, s2)

/-- `forFirstAvailableNode` (source lines 104–142): empty-list guard, then
a fresh clientset construction and pod listing whose resulting local
`etcdmap` (source lines 120–123) is built but never read afterwards, then
the per-candidate loop. -/
def forFirstAvailableNode (env : Env) (s : GenState) (nodeNames : List String) :
    Except Err EtcdClient × GenState :=
  if nodeNames.isEmpty then (.error invalidArgErr, s)
  else
    let s1 := { s with clientsetCalls := s.clientsetCalls + 1 }
    match env.newClientsetErr with
    | some e => (.error (clientsetErr e), s1)
    | none =>
      let s2 := { s1 with listCalls := s1.listCalls + 1 }
      match env.listPods with
      | .error e => (.error (listPodsErr e), s2)
      | .ok pods =>
        let _etcdmap := pods
        firstAvailLoop env s2 nodeNames []

/-- `getLeaderClient` (source lines 176–215): temporary dial to the single
candidate, membership query, leader-member scan, candidate-set check, then
a fresh dial to the leader's node.  `defer client.Close()` evaluates its
receiver at the `defer` statement, so it closes the temporary handle on
every exit path after the first dial — including the success path, where
`client` has been reassigned to the fresh leader dial. -/
def getLeaderClient (env : Env) (s : GenState) (nodeName : String)
    (allNodes : List String) : Except Err EtcdClient × GenState :=
  match forFirstAvailableNode env s [nodeName] with
  | (.error e, s1) => (.error (.aggregate [e, .etcdNodeConnection]), s1)
  | (.ok client, s1) =>
    match clientMembers env s1 client with
    | (.error e, s2) =>
      (.error (.aggregate [e, .etcdNodeConnection]), closeClient s2 client)
    | (.ok members, s2) =>
      match members.find? (fun m => m.id == client.leaderID) with
      | none =>
        (.error (.msg ("etcd leader is reported as " ++ goHex client.leaderID ++
          ", but we couldn\u0027t find any matching member")), closeClient s2 client)
      | some leaderMember =>
        let leaderNode := nodeNameFromMember leaderMember
        if allNodes.contains leaderNode then
          match forFirstAvailableNode env s2 [leaderNode] with
          | (r, s3) => (r, closeClient s3 client)
        else
          (.error (.msg ("etcd leader is reported as " ++ goHex leaderMember.id ++
            " with node name " ++ goQuote leaderNode ++
            ", but we couldn\u0027t find a corresponding Node in the cluster")),
           closeClient s2 client)

/-- The per-candidate loop of `forLeader` (source lines 157–170): a
failure satisfying `errors.Is (err, errEtcdNodeConnection)` is recorded
and the next candidate tried; any other failure is returned as is; the
aggregate of recorded failures is wrapped at the end. -/
def forLeaderLoop (env : Env) (allNodes : List String) :
    GenState → List String → List Err → Except Err EtcdClient × GenState
  | s, [], errs =>
    (.error (.wrap connectLeaderLabel (.aggregate errs)), s)
  | s, nodeName :: rest, errs =>
    match getLeaderClient env s nodeName allNodes with
    | (.error e, s1) =>
      if e.isConn then forLeaderLoop env allNodes s1 rest (errs ++ [e])
      else (.error e, s1)
    | (.ok cl, s1) => (.ok cl, s1)

/-- `forLeader` (source lines 145–171): empty-list guard, then the loop;
the `nodes` set built from `nodeNames` (membership = list membership) is
the candidate set handed to `getLeaderClient`. -/
def forLeader (env : Env) (s : GenState) (nodeNames : List String) :
    Except Err EtcdClient × GenState :=
  if nodeNames.isEmpty then (.error invalidArgErr, s)
  else forLeaderLoop env nodeNames s nodeNames []

/-- With the pod cache populated by `pods`, whether a candidate node fails
its per-candidate attempt in the `forFirstAvailableNode` loop: either its
pod is absent from the cache, or the dial to its pod fails. -/
def candidateFails (env : Env) (pods : List Pod) (n : String) : Bool :=
  match mapLookup pods n with
  | none => true
  | some p => (env.dial p).isSome

/-- With the pod cache populated by `pods`, the error recorded for a
failing candidate in the `forFirstAvailableNode` loop (meaningful only
when `candidateFails` holds). -/
def candErr (env : Env) (pods : List Pod) (n : String) : Err :=
  match mapLookup pods n with
  | none => notFoundErr n
  | some p =>
    match env.dial p with
    | some e => .msg e
    | none => .msg ""

/-- The retryable error `getLeaderClient` produces when the first dial to
the candidate fails (with the pod cache populated by `pods`): the
`forFirstAvailableNode` exhaustion wrap, aggregated with the sentinel. -/
def leaderConnFailErr (env : Env) (pods : List Pod) (n : String) : Err :=
  .aggregate [.wrap connectAnyNodeLabel (.aggregate [candErr env pods n]),
    .etcdNodeConnection]

/-- A public operation of the generator, for stating lifetime invariants
over call sequences. -/
inductive Op where
  | findPod : String → Op
  | firstAvail : List String → Op
  | leader : List String → Op

/-- Run one public operation for its state effect. -/
def runOp (env : Env) (s : GenState) : Op → GenState
  | .findPod n => (findEtcdProxyPod env s n).2
  | .firstAvail ns => (forFirstAvailableNode env s ns).2
  | .leader ns => (forLeader env s ns).2

/-- Run a sequence of public operations for their state effects. -/
def runOps (env : Env) : GenState → List Op → GenState
  | s, [] => s
  | s, op :: ops => runOps env (runOp env s op) ops

/-- Scenario environment for the three-candidate run: node `A` has no
proxy pod, `B` connects but its membership query errors, `C` connects and
reports itself leader (its client reports leader id 7 and its member list
associates member 7 with node `C`). -/
def envABC : Env :=
  { newClientsetErr := none
    listPods := .ok [⟨"B", "podB"⟩, ⟨"C", "podC"⟩]
    dial := fun _ => none
    leaderIDOf := fun p => if p == "podC" then 7 else 5
    membersOf := fun p =>
      if p == "podC" then .ok [⟨7, "C"⟩, ⟨5, "B"⟩] else .error "members query failed" }

/-- Witness environment: the only candidate `A` has a pod and connects,
but the member list it reports lacks the reported leader id. -/
def envNoLeaderMember : Env :=
  { newClientsetErr := none
    listPods := .ok [⟨"A", "podA"⟩]
    dial := fun _ => none
    leaderIDOf := fun _ => 2
    membersOf := fun _ => .ok [⟨1, "X"⟩] }

/-- Witness environment: every dial fails. -/
def envDialFail : Env :=
  { newClientsetErr := none
    listPods := .ok [⟨"A", "podA"⟩]
    dial := fun _ => some "connection refused"
    leaderIDOf := fun _ => 0
    membersOf := fun _ => .error "unreachable" }

/-- Witness environment: the pod inventory listing returns an empty set. -/
def envEmptyInventory : Env :=
  { newClientsetErr := none
    listPods := .ok []
    dial := fun _ => none
    leaderIDOf := fun _ => 0
    membersOf := fun _ => .error "unreachable" }

/-- Witness environment: candidate `A` connects and reports itself
leader; the leader member's node is `A` itself, and a re-dial succeeds. -/
def envSelfLeader : Env :=
  { newClientsetErr := none
    listPods := .ok [⟨"A", "podA"⟩]
    dial := fun _ => none
    leaderIDOf := fun _ => 3
    membersOf := fun _ => .ok [⟨3, "A"⟩] }

/-- Witness environment: candidate `A` connects and reports a leader
member whose node is `B`, inside the candidate set, but the dial to the
pod of `B` fails. -/
def envLeaderDialFail : Env :=
  { newClientsetErr := none
    listPods := .ok [⟨"A", "podA"⟩, ⟨"B", "podB"⟩]
    dial := fun p => if p == "podB" then some "connection refused" else none
    leaderIDOf := fun _ => 3
    membersOf := fun _ => .ok [⟨3, "B"⟩] }


theorem isConn_msg (m : String) : (Err.msg m).isConn = false := by simp [Err.isConn]

theorem isConn_wrap (m : String) (e : Err) : (Err.wrap m e).isConn = e.isConn := by
  simp [Err.isConn]

theorem isConn_agg_nil : (Err.aggregate []).isConn = false := by simp [Err.isConn]

theorem isConn_agg_cons (e : Err) (es : List Err) :
    (Err.aggregate (e :: es)).isConn = (e.isConn || (Err.aggregate es).isConn) := by
  rw [Err.isConn]

theorem podLookup_none (s : GenState) (pods : List Pod) (n : String)
    (h : mapLookup pods n = none) : podLookup s pods n = (.error (notFoundErr n), s) := by
  simp [podLookup, h]

theorem podLookup_some (s : GenState) (pods : List Pod) (n p : String)
    (h : mapLookup pods n = some p) : podLookup s pods n = (.ok p, s) := by
  simp [podLookup, h]

theorem podLookup_snd (s : GenState) (pods : List Pod) (n : String) :
    (podLookup s pods n).2 = s := by
  unfold podLookup; cases mapLookup pods n <;> rfl

theorem findPod_cached (env : Env) (s : GenState) (pods : List Pod) (n : String)
    (h : s.etcdPodMap = some pods) :
    findEtcdProxyPod env s n = podLookup s pods n := by
  simp [findEtcdProxyPod, h]

theorem createClient_ok (env : Env) (s : GenState) (p : String)
    (h : env.dial p = none) :
    createClient env s p =
      (.ok ⟨s.nextHandle, p, env.leaderIDOf p⟩,
       { s with dialCalls := s.dialCalls ++ [p], nextHandle := s.nextHandle + 1 }) := by
  simp [createClient, h]

theorem createClient_err (env : Env) (s : GenState) (p e : String)
    (h : env.dial p = some e) :
    createClient env s p = (.error (.msg e), { s with dialCalls := s.dialCalls ++ [p] }) := by
  simp [createClient, h]

theorem clientMembers_ok (env : Env) (s : GenState) (cl : EtcdClient) (ms : List Member)
    (h : env.membersOf cl.endpoint = .ok ms) :
    clientMembers env s cl = (.ok ms, { s with membersCalls := s.membersCalls ++ [cl.id] }) := by
  simp [clientMembers, h]

theorem clientMembers_err (env : Env) (s : GenState) (cl : EtcdClient) (e : String)
    (h : env.membersOf cl.endpoint = .error e) :
    clientMembers env s cl =
      (.error (.msg e), { s with membersCalls := s.membersCalls ++ [cl.id] }) := by
  simp [clientMembers, h]

theorem firstAvailLoop_nil (env : Env) (s : GenState) (errs : List Err) :
    firstAvailLoop env s [] errs =
      (.error (.wrap connectAnyNodeLabel (.aggregate errs)), s) := rfl

theorem firstAvailLoop_cons (env : Env) (s : GenState) (n : String) (rest : List String)
    (errs : List Err) :
    firstAvailLoop env s (n :: rest) errs =
      match findEtcdProxyPod env s n with
      | (.error e, s1) => firstAvailLoop env s1 rest (errs ++ [e])
      | (.ok podName, s1) =>
        match createClient env s1 podName with
        | (.error e, s2) => firstAvailLoop env s2 rest (errs ++ [e])
        | (.ok client, s2) => (.ok client, s2) := rfl

theorem forFirstAvailableNode_entry (env : Env) (s : GenState) (names : List String)
    (ps : List Pod) (hne : names ≠ []) (hcs : env.newClientsetErr = none)
    (hlist : env.listPods = .ok ps) :
    forFirstAvailableNode env s names =
      firstAvailLoop env
        { s with clientsetCalls := s.clientsetCalls + 1, listCalls := s.listCalls + 1 }
        names [] := by
  simp [forFirstAvailableNode, hne, hcs, hlist]

theorem forFirstAvailableNode_listErr (env : Env) (s : GenState) (names : List String)
    (e : String) (hne : names ≠ []) (hcs : env.newClientsetErr = none)
    (hlist : env.listPods = .error e) :
    forFirstAvailableNode env s names =
      (.error (listPodsErr e),
       { s with clientsetCalls := s.clientsetCalls + 1, listCalls := s.listCalls + 1 }) := by
  simp [forFirstAvailableNode, hne, hcs, hlist]

theorem forFirstAvailableNode_csErr (env : Env) (s : GenState) (names : List String)
    (e : String) (hne : names ≠ []) (hcs : env.newClientsetErr = some e) :
    forFirstAvailableNode env s names =
      (.error (clientsetErr e), { s with clientsetCalls := s.clientsetCalls + 1 }) := by
  simp [forFirstAvailableNode, hne, hcs]

theorem findPod_frame (env : Env) (s : GenState) (n : String) :
    ((findEtcdProxyPod env s n).2).closes = s.closes ∧
    ((findEtcdProxyPod env s n).2).membersCalls = s.membersCalls ∧
    ((findEtcdProxyPod env s n).2).nextHandle = s.nextHandle ∧
    ((findEtcdProxyPod env s n).2).dialCalls = s.dialCalls := by
  unfold findEtcdProxyPod
  cases hm : s.etcdPodMap with
  | some pods => simp [podLookup_snd]
  | none =>
    cases hcs : env.newClientsetErr with
    | some e => simp
    | none =>
      cases hl : env.listPods with
      | error e => simp
      | ok pods =>
        by_cases hp : pods.isEmpty <;> simp [hp, podLookup_snd]

theorem findPod_cache_mono (env : Env) (s : GenState) (pods : List Pod) (n : String)
    (h : s.etcdPodMap = some pods) :
    ((findEtcdProxyPod env s n).2).etcdPodMap = some pods := by
  rw [findPod_cached env s pods n h, podLookup_snd, h]

theorem firstAvailLoop_frame (env : Env) (names : List String) :
    ∀ (s : GenState) (errs : List Err),
      ((firstAvailLoop env s names errs).2.closes = s.closes) ∧
      ((firstAvailLoop env s names errs).2.membersCalls = s.membersCalls) ∧
      (∀ cl, (firstAvailLoop env s names errs).1 = .ok cl →
        (firstAvailLoop env s names errs).2.nextHandle = cl.id + 1) ∧
      (∀ e, (firstAvailLoop env s names errs).1 = .error e →
        (firstAvailLoop env s names errs).2.nextHandle = s.nextHandle) := by
  induction names with
  | nil => intro s errs; simp [firstAvailLoop_nil]
  | cons n rest ih =>
    intro s errs
    rw [firstAvailLoop_cons]
    rcases hf : findEtcdProxyPod env s n with ⟨rf, s1⟩
    have hfr := findPod_frame env s n
    rw [hf] at hfr
    cases rf with
    | error e =>
      simp only
      obtain ⟨ih1, ih2, ih3, ih4⟩ := ih s1 (errs ++ [e])
      refine ⟨by rw [ih1, hfr.1], by rw [ih2, hfr.2.1], ih3, ?_⟩
      intro e' he'
      rw [ih4 e' he', hfr.2.2.1]
    | ok p =>
      simp only
      rcases hc : createClient env s1 p with ⟨rc, s2⟩
      cases rc with
      | error e =>
        simp only
        obtain ⟨ih1, ih2, ih3, ih4⟩ := ih s2 (errs ++ [e])
        have hc2 : s2 = { s1 with dialCalls := s1.dialCalls ++ [p] } := by
          rcases hd : env.dial p with _ | em
          · rw [createClient_ok env s1 p hd] at hc
            exact absurd (congrArg Prod.fst hc) (by simp)
          · rw [createClient_err env s1 p em hd] at hc
            exact (congrArg Prod.snd hc).symm
        subst hc2
        refine ⟨by rw [ih1]; exact hfr.1, by rw [ih2]; exact hfr.2.1, ih3, ?_⟩
        intro e' he'
        rw [ih4 e' he']; exact hfr.2.2.1
      | ok cl =>
        simp only
        have hc2 : s2.nextHandle = cl.id + 1 ∧ s2.closes = s1.closes ∧
            s2.membersCalls = s1.membersCalls := by
          rcases hd : env.dial p with _ | em
          · rw [createClient_ok env s1 p hd] at hc
            have h1 := congrArg Prod.fst hc
            have h2 := congrArg Prod.snd hc
            simp only at h1 h2
            cases h1
            rw [← h2]
            exact ⟨rfl, rfl, rfl⟩
          · rw [createClient_err env s1 p em hd] at hc
            exact absurd (congrArg Prod.fst hc) (by simp)
        refine ⟨by rw [hc2.2.1, hfr.1], by rw [hc2.2.2, hfr.2.1], ?_, ?_⟩
        · intro cl' hcl'
          cases hcl'
          exact hc2.1
        · intro e' he'
          exact absurd he' (by simp)

theorem firstAvailLoop_skip (env : Env) (s : GenState) (pods : List Pod) (n : String)
    (h : s.etcdPodMap = some pods) (hf : candidateFails env pods n = true) :
    ∃ s1, (∀ rest errs, firstAvailLoop env s (n :: rest) errs =
        firstAvailLoop env s1 rest (errs ++ [candErr env pods n])) ∧
      s1.etcdPodMap = some pods ∧ s1.closes = s.closes ∧
      s1.membersCalls = s.membersCalls ∧ s1.nextHandle = s.nextHandle ∧
      s1.listCalls = s.listCalls ∧ s1.clientsetCalls = s.clientsetCalls := by
  cases hp : mapLookup pods n with
  | none =>
    refine ⟨s, fun rest errs => ?_, h, rfl, rfl, rfl, rfl, rfl⟩
    rw [firstAvailLoop_cons, findPod_cached env s pods n h, podLookup_none s pods n hp]
    simp [candErr, hp]
  | some p =>
    have hd : ∃ e, env.dial p = some e := by
      unfold candidateFails at hf
      rw [hp] at hf
      simp only at hf
      exact Option.isSome_iff_exists.mp hf
    obtain ⟨e, hd⟩ := hd
    refine ⟨{ s with dialCalls := s.dialCalls ++ [p] }, fun rest errs => ?_, h, rfl, rfl, rfl, rfl, rfl⟩
    rw [firstAvailLoop_cons, findPod_cached env s pods n h, podLookup_some s pods n p hp]
    simp only
    rw [createClient_err env s p e hd]
    simp [candErr, hp, hd]

theorem firstAvailLoop_win (env : Env) (s : GenState) (pods : List Pod) (n p : String)
    (h : s.etcdPodMap = some pods) (hp : mapLookup pods n = some p)
    (hd : env.dial p = none) (rest : List String) (errs : List Err) :
    firstAvailLoop env s (n :: rest) errs =
      (.ok ⟨s.nextHandle, p, env.leaderIDOf p⟩,
       { s with dialCalls := s.dialCalls ++ [p], nextHandle := s.nextHandle + 1 }) := by
  rw [firstAvailLoop_cons, findPod_cached env s pods n h, podLookup_some s pods n p hp]
  simp only
  rw [createClient_ok env s p hd]

theorem firstAvailLoop_all_fail (env : Env) (pods : List Pod) (names : List String)
    (hall : ∀ n ∈ names, candidateFails env pods n = true) :
    ∀ (s : GenState) (errs : List Err), s.etcdPodMap = some pods →
    ∃ s', firstAvailLoop env s names errs =
        (.error (.wrap connectAnyNodeLabel
          (.aggregate (errs ++ names.map (candErr env pods)))), s') ∧
      s'.etcdPodMap = some pods ∧ s'.closes = s.closes ∧
      s'.membersCalls = s.membersCalls ∧ s'.nextHandle = s.nextHandle ∧
      s'.listCalls = s.listCalls ∧ s'.clientsetCalls = s.clientsetCalls := by
  induction names with
  | nil =>
    intro s errs h
    exact ⟨s, by simp [firstAvailLoop_nil], h, rfl, rfl, rfl, rfl, rfl⟩
  | cons n rest ih =>
    intro s errs h
    obtain ⟨s1, hstep, hc1, hcl1, hm1, hn1, hl1, hcs1⟩ :=
      firstAvailLoop_skip env s pods n h (hall n (by simp))
    obtain ⟨s', hrun, hc', hcl', hm', hn', hl', hcs'⟩ :=
      ih (fun m hm => hall m (by simp [hm])) s1 (errs ++ [candErr env pods n]) hc1
    refine ⟨s', ?_, hc', by rw [hcl', hcl1], by rw [hm', hm1], by rw [hn', hn1],
      by rw [hl', hl1], by rw [hcs', hcs1]⟩
    rw [hstep, hrun]
    simp

theorem firstAvailLoop_cached_counts (env : Env) (pods : List Pod) (names : List String) :
    ∀ (s : GenState) (errs : List Err), s.etcdPodMap = some pods →
      ((firstAvailLoop env s names errs).2.etcdPodMap = some pods) ∧
      ((firstAvailLoop env s names errs).2.listCalls = s.listCalls) ∧
      ((firstAvailLoop env s names errs).2.clientsetCalls = s.clientsetCalls) := by
  induction names with
  | nil => intro s errs h; simp [firstAvailLoop_nil, h]
  | cons n rest ih =>
    intro s errs h
    rw [firstAvailLoop_cons, findPod_cached env s pods n h]
    cases hp : mapLookup pods n with
    | none => rw [podLookup_none s pods n hp]; exact ih s (errs ++ [_]) h
    | some p =>
      rw [podLookup_some s pods n p hp]
      simp only
      cases hd : env.dial p with
      | none => rw [createClient_ok env s p hd]; exact ⟨h, rfl, rfl⟩
      | some e => rw [createClient_err env s p e hd]; exact ih _ (errs ++ [_]) h

theorem findPod_emptyInv (env : Env) (s : GenState) (n : String)
    (h : s.etcdPodMap = none) (hcs : env.newClientsetErr = none)
    (hl : env.listPods = .ok []) :
    findEtcdProxyPod env s n =
      (.error emptyInventoryErr,
       { s with clientsetCalls := s.clientsetCalls + 1, listCalls := s.listCalls + 1 }) := by
  simp [findEtcdProxyPod, h, hcs, hl]

theorem firstAvailLoop_emptyInv (env : Env) (hcs : env.newClientsetErr = none)
    (hl : env.listPods = .ok []) (names : List String) :
    ∀ (s : GenState) (errs : List Err), s.etcdPodMap = none →
      ∃ s', firstAvailLoop env s names errs =
          (.error (.wrap connectAnyNodeLabel
            (.aggregate (errs ++ List.replicate names.length emptyInventoryErr))), s') ∧
        s'.etcdPodMap = none ∧ s'.dialCalls = s.dialCalls ∧
        s'.membersCalls = s.membersCalls ∧ s'.closes = s.closes := by
  induction names with
  | nil => intro s errs h; exact ⟨s, by simp [firstAvailLoop_nil], h, rfl, rfl, rfl⟩
  | cons n rest ih =>
    intro s errs h
    rw [firstAvailLoop_cons, findPod_emptyInv env s n h hcs hl]
    simp only
    obtain ⟨s', hrun, h1, h2, h3, h4⟩ :=
      ih { s with clientsetCalls := s.clientsetCalls + 1, listCalls := s.listCalls + 1 }
        (errs ++ [emptyInventoryErr]) h
    refine ⟨s', ?_, h1, h2, h3, h4⟩
    rw [hrun]
    simp [List.replicate_succ]

theorem getLeaderClient_connFail (env : Env) (s : GenState) (n : String)
    (allNodes : List String) (e : Err) (s1 : GenState)
    (h : forFirstAvailableNode env s [n] = (.error e, s1)) :
    getLeaderClient env s n allNodes = (.error (.aggregate [e, .etcdNodeConnection]), s1) := by
  unfold getLeaderClient
  rw [h]

theorem getLeaderClient_membersFail (env : Env) (s : GenState) (n : String)
    (allNodes : List String) (tmp : EtcdClient) (s1 : GenState) (em : String)
    (h : forFirstAvailableNode env s [n] = (.ok tmp, s1))
    (hm : env.membersOf tmp.endpoint = .error em) :
    getLeaderClient env s n allNodes =
      (.error (.aggregate [.msg em, .etcdNodeConnection]),
       closeClient { s1 with membersCalls := s1.membersCalls ++ [tmp.id] } tmp) := by
  unfold getLeaderClient
  rw [h]
  simp only
  rw [clientMembers_err env s1 tmp em hm]

theorem getLeaderClient_noLeaderMember (env : Env) (s : GenState) (n : String)
    (allNodes : List String) (tmp : EtcdClient) (s1 : GenState) (ms : List Member)
    (h : forFirstAvailableNode env s [n] = (.ok tmp, s1))
    (hm : env.membersOf tmp.endpoint = .ok ms)
    (hf : ms.find? (fun m => m.id == tmp.leaderID) = none) :
    getLeaderClient env s n allNodes =
      (.error (.msg ("etcd leader is reported as " ++ goHex tmp.leaderID ++
        ", but we couldn't find any matching member")),
       closeClient { s1 with membersCalls := s1.membersCalls ++ [tmp.id] } tmp) := by
  unfold getLeaderClient
  rw [h]
  simp only
  rw [clientMembers_ok env s1 tmp ms hm]
  simp only
  rw [hf]

theorem getLeaderClient_notCandidate (env : Env) (s : GenState) (n : String)
    (allNodes : List String) (tmp : EtcdClient) (s1 : GenState) (ms : List Member)
    (mem : Member)
    (h : forFirstAvailableNode env s [n] = (.ok tmp, s1))
    (hm : env.membersOf tmp.endpoint = .ok ms)
    (hf : ms.find? (fun m => m.id == tmp.leaderID) = some mem)
    (hout : allNodes.contains (nodeNameFromMember mem) = false) :
    getLeaderClient env s n allNodes =
      (.error (.msg ("etcd leader is reported as " ++ goHex mem.id ++
        " with node name " ++ goQuote (nodeNameFromMember mem) ++
        ", but we couldn't find a corresponding Node in the cluster")),
       closeClient { s1 with membersCalls := s1.membersCalls ++ [tmp.id] } tmp) := by
  unfold getLeaderClient
  rw [h]
  simp only
  rw [clientMembers_ok env s1 tmp ms hm]
  simp only
  rw [hf]
  simp only [hout]
  rfl

theorem getLeaderClient_redial (env : Env) (s : GenState) (n : String)
    (allNodes : List String) (tmp : EtcdClient) (s1 : GenState) (ms : List Member)
    (mem : Member)
    (h : forFirstAvailableNode env s [n] = (.ok tmp, s1))
    (hm : env.membersOf tmp.endpoint = .ok ms)
    (hf : ms.find? (fun m => m.id == tmp.leaderID) = some mem)
    (hin : allNodes.contains (nodeNameFromMember mem) = true) :
    getLeaderClient env s n allNodes =
      (let res := forFirstAvailableNode env
        { s1 with membersCalls := s1.membersCalls ++ [tmp.id] } [nodeNameFromMember mem]
       (res.1, closeClient res.2 tmp)) := by
  unfold getLeaderClient
  rw [h]
  simp only
  rw [clientMembers_ok env s1 tmp ms hm]
  simp only
  rw [hf]
  simp only [hin]
  rfl

theorem forLeaderLoop_nil (env : Env) (allNodes : List String) (s : GenState)
    (errs : List Err) :
    forLeaderLoop env allNodes s [] errs =
      (.error (.wrap connectLeaderLabel (.aggregate errs)), s) := rfl

theorem forLeaderLoop_cons (env : Env) (allNodes : List String) (s : GenState)
    (n : String) (rest : List String) (errs : List Err) :
    forLeaderLoop env allNodes s (n :: rest) errs =
      match getLeaderClient env s n allNodes with
      | (.error e, s1) =>
        if e.isConn then forLeaderLoop env allNodes s1 rest (errs ++ [e])
        else (.error e, s1)
      | (.ok cl, s1) => (.ok cl, s1) := rfl

theorem forLeaderLoop_retry (env : Env) (allNodes : List String) (s s1 : GenState)
    (n : String) (rest : List String) (errs : List Err) (e : Err)
    (h : getLeaderClient env s n allNodes = (.error e, s1)) (hc : e.isConn = true) :
    forLeaderLoop env allNodes s (n :: rest) errs =
      forLeaderLoop env allNodes s1 rest (errs ++ [e]) := by
  rw [forLeaderLoop_cons, h]
  simp [hc]

theorem forLeaderLoop_fatal (env : Env) (allNodes : List String) (s s1 : GenState)
    (n : String) (rest : List String) (errs : List Err) (e : Err)
    (h : getLeaderClient env s n allNodes = (.error e, s1)) (hc : e.isConn = false) :
    forLeaderLoop env allNodes s (n :: rest) errs = (.error e, s1) := by
  rw [forLeaderLoop_cons, h]
  simp [hc]

theorem forLeaderLoop_ok (env : Env) (allNodes : List String) (s s1 : GenState)
    (n : String) (rest : List String) (errs : List Err) (cl : EtcdClient)
    (h : getLeaderClient env s n allNodes = (.ok cl, s1)) :
    forLeaderLoop env allNodes s (n :: rest) errs = (.ok cl, s1) := by
  rw [forLeaderLoop_cons, h]

theorem aggPair_isConn (e : Err) :
    (Err.aggregate [e, .etcdNodeConnection]).isConn = true := by
  rw [isConn_agg_cons, isConn_agg_cons]
  simp [Err.isConn]

theorem candErr_isConn (env : Env) (pods : List Pod) (n : String) :
    (candErr env pods n).isConn = false := by
  unfold candErr
  cases hp : mapLookup pods n with
  | none => simp [notFoundErr, isConn_msg]
  | some p => cases hd : env.dial p <;> simp [hd, isConn_msg]

theorem leaderConnFailErr_isConn (env : Env) (pods : List Pod) (n : String) :
    (leaderConnFailErr env pods n).isConn = true := by
  unfold leaderConnFailErr
  rw [isConn_agg_cons, isConn_wrap]
  simp [Err.isConn]

theorem getLeaderClient_connFail_cached (env : Env) (s : GenState) (pods : List Pod)
    (n : String) (allNodes : List String) (ps : List Pod)
    (hcache : s.etcdPodMap = some pods) (hcs : env.newClientsetErr = none)
    (hlist : env.listPods = .ok ps) (hf : candidateFails env pods n = true) :
    ∃ s1, getLeaderClient env s n allNodes = (.error (leaderConnFailErr env pods n), s1) ∧
      s1.etcdPodMap = some pods ∧ s1.closes = s.closes ∧
      s1.membersCalls = s.membersCalls ∧ s1.nextHandle = s.nextHandle ∧
      s1.listCalls = s.listCalls + 1 ∧ s1.clientsetCalls = s.clientsetCalls + 1 := by
  have hentry := forFirstAvailableNode_entry env s [n] ps (by simp) hcs hlist
  obtain ⟨s', hrun, hc', hcl', hm', hn', hl', hcs'⟩ :=
    firstAvailLoop_all_fail env pods [n] (by simpa using hf)
      { s with clientsetCalls := s.clientsetCalls + 1, listCalls := s.listCalls + 1 }
      [] hcache
  have hffan : forFirstAvailableNode env s [n] =
      (.error (.wrap connectAnyNodeLabel (.aggregate [candErr env pods n])), s') := by
    rw [hentry, hrun]; simp
  refine ⟨s', ?_, hc', hcl', hm', hn', by simpa using hl', by simpa using hcs'⟩
  rw [getLeaderClient_connFail env s n allNodes _ s' hffan]
  rfl

theorem forLeaderLoop_all_retry (env : Env) (allNodes : List String) (pods : List Pod)
    (errOf : String → Err) (names : List String)
    (hall : ∀ n ∈ names, ∀ s', s'.etcdPodMap = some pods →
      ∃ s'', getLeaderClient env s' n allNodes = (.error (errOf n), s'') ∧
        s''.etcdPodMap = some pods)
    (hconn : ∀ n ∈ names, (errOf n).isConn = true) :
    ∀ (s : GenState) (errs : List Err), s.etcdPodMap = some pods →
      ∃ s', forLeaderLoop env allNodes s names errs =
          (.error (.wrap connectLeaderLabel (.aggregate (errs ++ names.map errOf))), s') ∧
        s'.etcdPodMap = some pods := by
  induction names with
  | nil => intro s errs h; exact ⟨s, by simp [forLeaderLoop_nil], h⟩
  | cons n rest ih =>
    intro s errs h
    obtain ⟨s1, hglc, hc1⟩ := hall n (by simp) s h
    obtain ⟨s', hrun, hc'⟩ := ih (fun m hm => hall m (by simp [hm]))
      (fun m hm => hconn m (by simp [hm])) s1 (errs ++ [errOf n]) hc1
    refine ⟨s', ?_, hc'⟩
    rw [forLeaderLoop_retry env allNodes s s1 n rest errs (errOf n) hglc
      (hconn n (by simp)), hrun]
    simp

theorem notFound_ne_emptyInv (n : String) : notFoundErr n ≠ emptyInventoryErr := by
  simp only [notFoundErr, emptyInventoryErr]
  intro h
  injection h with h2
  have h3 := congrArg String.data h2
  rw [String.data_append] at h3
  simp at h3

theorem notFound_ne_wrap (n m : String) (e : Err) : notFoundErr n ≠ Err.wrap m e := by
  simp only [notFoundErr]
  intro h
  exact Err.noConfusion h


theorem firstAvailLoop_ok_id (env : Env) (names : List String) :
    ∀ (s : GenState) (errs : List Err) (cl : EtcdClient) (s' : GenState),
      firstAvailLoop env s names errs = (.ok cl, s') → cl.id = s.nextHandle := by
  induction names with
  | nil => intro s errs cl s' h; rw [firstAvailLoop_nil] at h; exact absurd (congrArg Prod.fst h) (by simp)
  | cons n rest ih =>
    intro s errs cl s' h
    rw [firstAvailLoop_cons] at h
    rcases hf : findEtcdProxyPod env s n with ⟨rf, s1⟩
    have hfr := findPod_frame env s n
    rw [hf] at hfr
    rw [hf] at h
    cases rf with
    | error e =>
      simp only at h
      rw [ih s1 (errs ++ [e]) cl s' h, hfr.2.2.1]
    | ok p =>
      simp only at h
      cases hd : env.dial p with
      | none =>
        rw [createClient_ok env s1 p hd] at h
        simp only at h
        have h1 := congrArg Prod.fst h
        simp only at h1
        cases h1
        exact hfr.2.2.1
      | some e =>
        rw [createClient_err env s1 p e hd] at h
        simp only at h
        rw [ih _ (errs ++ [.msg e]) cl s' h]
        exact hfr.2.2.1

theorem forFirstAvailableNode_frame (env : Env) (s : GenState) (ns : List String) :
    ((forFirstAvailableNode env s ns).2.closes = s.closes) ∧
    ((forFirstAvailableNode env s ns).2.membersCalls = s.membersCalls) ∧
    (∀ cl, (forFirstAvailableNode env s ns).1 = .ok cl →
      cl.id = s.nextHandle ∧ (forFirstAvailableNode env s ns).2.nextHandle = cl.id + 1) ∧
    (∀ e, (forFirstAvailableNode env s ns).1 = .error e →
      (forFirstAvailableNode env s ns).2.nextHandle = s.nextHandle) := by
  by_cases hne : ns.isEmpty
  · simp [forFirstAvailableNode, hne]
  · unfold forFirstAvailableNode
    simp only [hne, Bool.false_eq_true, if_false]
    cases hcs : env.newClientsetErr with
    | some e => simp
    | none =>
      cases hl : env.listPods with
      | error e => simp
      | ok pods =>
        simp only
        set s2 : GenState :=
          { s with clientsetCalls := s.clientsetCalls + 1, listCalls := s.listCalls + 1 } with hs2
        have hfr := firstAvailLoop_frame env ns s2 []
        refine ⟨hfr.1, hfr.2.1, ?_, hfr.2.2.2⟩
        intro cl hcl
        rcases hrun : firstAvailLoop env s2 ns [] with ⟨r, s'⟩
        rw [hrun] at hcl
        simp only at hcl
        subst hcl
        constructor
        · exact firstAvailLoop_ok_id env ns s2 [] cl s' hrun
        · have := hfr.2.2.1 cl
          rw [hrun] at this
          exact this rfl

theorem forFirstAvailableNode_cache_mono (env : Env) (s : GenState) (m : List Pod)
    (ns : List String) (h : s.etcdPodMap = some m) :
    ((forFirstAvailableNode env s ns).2).etcdPodMap = some m := by
  by_cases hne : ns.isEmpty
  · simp [forFirstAvailableNode, hne, h]
  · unfold forFirstAvailableNode
    simp only [hne, Bool.false_eq_true, if_false]
    cases hcs : env.newClientsetErr with
    | some e => simp [h]
    | none =>
      cases hl : env.listPods with
      | error e => simp [h]
      | ok pods =>
        simp only
        exact (firstAvailLoop_cached_counts env m ns
          { s with clientsetCalls := s.clientsetCalls + 1, listCalls := s.listCalls + 1 }
          [] h).1

theorem getLeaderClient_cache_mono (env : Env) (s : GenState) (m : List Pod)
    (n : String) (allNodes : List String) (h : s.etcdPodMap = some m) :
    ((getLeaderClient env s n allNodes).2).etcdPodMap = some m := by
  rcases hffan : forFirstAvailableNode env s [n] with ⟨rf, s1⟩
  have hc1 : s1.etcdPodMap = some m := by
    have := forFirstAvailableNode_cache_mono env s m [n] h
    rw [hffan] at this
    exact this
  cases rf with
  | error e => rw [getLeaderClient_connFail env s n allNodes e s1 hffan]; exact hc1
  | ok tmp =>
    cases hm : env.membersOf tmp.endpoint with
    | error em =>
      rw [getLeaderClient_membersFail env s n allNodes tmp s1 em hffan hm]
      simpa [closeClient] using hc1
    | ok ms =>
      cases hfind : ms.find? (fun mem => mem.id == tmp.leaderID) with
      | none =>
        rw [getLeaderClient_noLeaderMember env s n allNodes tmp s1 ms hffan hm hfind]
        simpa [closeClient] using hc1
      | some mem =>
        cases hin : allNodes.contains (nodeNameFromMember mem) with
        | false =>
          rw [getLeaderClient_notCandidate env s n allNodes tmp s1 ms mem hffan hm hfind hin]
          simpa [closeClient] using hc1
        | true =>
          rw [getLeaderClient_redial env s n allNodes tmp s1 ms mem hffan hm hfind hin]
          simp only [closeClient]
          exact forFirstAvailableNode_cache_mono env _ m [nodeNameFromMember mem] hc1

theorem forLeaderLoop_cache_mono (env : Env) (allNodes : List String) (m : List Pod)
    (names : List String) :
    ∀ (s : GenState) (errs : List Err), s.etcdPodMap = some m →
      ((forLeaderLoop env allNodes s names errs).2).etcdPodMap = some m := by
  induction names with
  | nil => intro s errs h; rw [forLeaderLoop_nil]; exact h
  | cons n rest ih =>
    intro s errs h
    rw [forLeaderLoop_cons]
    rcases hglc : getLeaderClient env s n allNodes with ⟨r, s1⟩
    have hc1 : s1.etcdPodMap = some m := by
      have := getLeaderClient_cache_mono env s m n allNodes h
      rw [hglc] at this
      exact this
    cases r with
    | error e =>
      simp only
      by_cases hic : e.isConn
      · simp only [hic, if_true]
        exact ih s1 (errs ++ [e]) hc1
      · simp only [hic, if_false]
        exact hc1
    | ok cl => exact hc1

theorem forLeader_cache_mono (env : Env) (s : GenState) (m : List Pod)
    (ns : List String) (h : s.etcdPodMap = some m) :
    ((forLeader env s ns).2).etcdPodMap = some m := by
  by_cases hne : ns.isEmpty
  · simp [forLeader, hne, h]
  · unfold forLeader
    simp only [hne, Bool.false_eq_true, if_false]
    exact forLeaderLoop_cache_mono env ns m ns s [] h

theorem runOps_cache_mono (env : Env) (m : List Pod) (ops : List Op) :
    ∀ s : GenState, s.etcdPodMap = some m → (runOps env s ops).etcdPodMap = some m := by
  induction ops with
  | nil => intro s h; exact h
  | cons op ops ih =>
    intro s h
    cases op with
    | findPod n =>
      apply ih
      show ((findEtcdProxyPod env s n).2).etcdPodMap = some m
      exact findPod_cache_mono env s m n h
    | firstAvail ns =>
      apply ih
      exact forFirstAvailableNode_cache_mono env s m ns h
    | leader ns =>
      apply ih
      exact forLeader_cache_mono env s m ns h

theorem forLeader_entry (env : Env) (s : GenState) (names : List String)
    (hne : names ≠ []) :
    forLeader env s names = forLeaderLoop env names s names [] := by
  simp [forLeader, hne]


theorem createClient_frame (env : Env) (s : GenState) (p : String) :
    ((createClient env s p).2).etcdPodMap = s.etcdPodMap ∧
    ((createClient env s p).2).closes = s.closes ∧
    ((createClient env s p).2).membersCalls = s.membersCalls ∧
    ((createClient env s p).2).listCalls = s.listCalls ∧
    ((createClient env s p).2).clientsetCalls = s.clientsetCalls := by
  unfold createClient
  cases env.dial p <;> simp

theorem createClient_congr (env env' : Env) (s : GenState) (p : String)
    (hdial : env.dial = env'.dial) (hlid : env.leaderIDOf = env'.leaderIDOf) :
    createClient env s p = createClient env' s p := by
  unfold createClient
  rw [hdial, hlid]

theorem firstAvailLoop_env_agnostic (env env' : Env) (pods : List Pod)
    (hdial : env.dial = env'.dial) (hlid : env.leaderIDOf = env'.leaderIDOf)
    (names : List String) :
    ∀ (s : GenState) (errs : List Err), s.etcdPodMap = some pods →
      firstAvailLoop env s names errs = firstAvailLoop env' s names errs := by
  induction names with
  | nil => intro s errs _; rw [firstAvailLoop_nil, firstAvailLoop_nil]
  | cons n rest ih =>
    intro s errs h
    rw [firstAvailLoop_cons, firstAvailLoop_cons, findPod_cached env s pods n h,
      findPod_cached env' s pods n h]
    cases hp : mapLookup pods n with
    | none =>
      rw [podLookup_none s pods n hp]
      exact ih s (errs ++ [notFoundErr n]) h
    | some p =>
      rw [podLookup_some s pods n p hp]
      simp only
      rw [← createClient_congr env env' s p hdial hlid]
      rcases hc : createClient env s p with ⟨rc, s2⟩
      have hc2 : s2.etcdPodMap = some pods := by
        have := (createClient_frame env s p).1
        rw [hc] at this
        rw [this, h]
      cases rc with
      | error e => exact ih s2 (errs ++ [e]) hc2
      | ok cl => rfl

theorem forFirstAvailableNode_ignores_listing (env : Env) (s : GenState) (pods : List Pod)
    (ns : List String) (ps ps' : List Pod) (h : s.etcdPodMap = some pods) :
    forFirstAvailableNode { env with listPods := .ok ps } s ns =
      forFirstAvailableNode { env with listPods := .ok ps' } s ns := by
  by_cases hne : ns.isEmpty
  · simp [forFirstAvailableNode, hne]
  · unfold forFirstAvailableNode
    simp only [hne, Bool.false_eq_true, if_false]
    cases hcs : env.newClientsetErr with
    | some e => rfl
    | none =>
      simp only
      exact firstAvailLoop_env_agnostic
        { newClientsetErr := none, listPods := Except.ok ps, dial := env.dial,
          leaderIDOf := env.leaderIDOf, membersOf := env.membersOf }
        { newClientsetErr := none, listPods := Except.ok ps', dial := env.dial,
          leaderIDOf := env.leaderIDOf, membersOf := env.membersOf }
        pods rfl rfl ns _ [] h

theorem forFirstAvailableNode_counts (env : Env) (s : GenState) (pods ps : List Pod)
    (ns : List String) (hcache : s.etcdPodMap = some pods)
    (hcs : env.newClientsetErr = none) (hlist : env.listPods = .ok ps) (hne : ns ≠ []) :
    ((forFirstAvailableNode env s ns).2.listCalls = s.listCalls + 1) ∧
    ((forFirstAvailableNode env s ns).2.clientsetCalls = s.clientsetCalls + 1) := by
  rw [forFirstAvailableNode_entry env s ns ps hne hcs hlist]
  have := firstAvailLoop_cached_counts env pods ns
    { s with clientsetCalls := s.clientsetCalls + 1, listCalls := s.listCalls + 1 } [] hcache
  exact ⟨this.2.1, this.2.2⟩

theorem firstAvailLoop_skipAll_win (env : Env) (pods : List Pod) (winner wpod : String)
    (hwin : mapLookup pods winner = some wpod) (hd : env.dial wpod = none)
    (pre : List String) (hpre : ∀ n ∈ pre, candidateFails env pods n = true) :
    ∀ s : GenState, s.etcdPodMap = some pods →
      ∃ cl s', cl.endpoint = wpod ∧
        ∀ (post : List String) (errs : List Err),
          firstAvailLoop env s (pre ++ winner :: post) errs = (.ok cl, s') := by
  induction pre with
  | nil =>
    intro s h
    exact ⟨⟨s.nextHandle, wpod, env.leaderIDOf wpod⟩, _, rfl,
      fun post errs => firstAvailLoop_win env s pods winner wpod h hwin hd post errs⟩
  | cons n pre ih =>
    intro s h
    obtain ⟨s1, hstep, hc1, _⟩ := firstAvailLoop_skip env s pods n h (hpre n (by simp))
    obtain ⟨cl, s', hep, hrun⟩ := ih (fun m hm => hpre m (by simp [hm])) s1 hc1
    refine ⟨cl, s', hep, fun post errs => ?_⟩
    rw [List.cons_append, hstep (pre ++ winner :: post) errs, hrun]

theorem forLeaderLoop_all_connFail (env : Env) (allNodes : List String) (pods ps : List Pod)
    (hcs : env.newClientsetErr = none) (hlist : env.listPods = .ok ps) (names : List String)
    (hall : ∀ n ∈ names, candidateFails env pods n = true) :
    ∀ (s : GenState) (errs : List Err), s.etcdPodMap = some pods →
      ∃ s', forLeaderLoop env allNodes s names errs =
          (.error (.wrap connectLeaderLabel
            (.aggregate (errs ++ names.map (leaderConnFailErr env pods)))), s') ∧
        s'.etcdPodMap = some pods ∧ s'.listCalls = s.listCalls + names.length ∧
        s'.clientsetCalls = s.clientsetCalls + names.length ∧
        s'.closes = s.closes ∧ s'.membersCalls = s.membersCalls ∧
        s'.nextHandle = s.nextHandle := by
  induction names with
  | nil =>
    intro s errs h
    exact ⟨s, by simp [forLeaderLoop_nil], h, by simp, by simp, rfl, rfl, rfl⟩
  | cons n rest ih =>
    intro s errs h
    obtain ⟨s1, hglc, hc1, hcl1, hm1, hn1, hl1, hcs1⟩ :=
      getLeaderClient_connFail_cached env s pods n allNodes ps h hcs hlist (hall n (by simp))
    obtain ⟨s', hrun, hc', hl', hcs', hclo', hm', hn'⟩ :=
      ih (fun m hm => hall m (by simp [hm])) s1 (errs ++ [leaderConnFailErr env pods n]) hc1
    refine ⟨s', ?_, hc', by rw [hl', hl1, List.length_cons]; omega,
      by rw [hcs', hcs1, List.length_cons]; omega,
      by rw [hclo', hcl1], by rw [hm', hm1], by rw [hn', hn1]⟩
    rw [forLeaderLoop_retry env allNodes s s1 n rest errs _ hglc
      (leaderConnFailErr_isConn env pods n), hrun]
    simp


/-- Claim C6: on the empty candidate list, both `forFirstAvailableNode`
and `forLeader` fail immediately with the invalid-argument error and leave
the state — in particular the whole observation log of clientset
constructions, listings, dials and membership queries — untouched, so
zero network calls are performed. -/
theorem empty_candidates_invalid_arg (env : Env) (s : GenState) :
    forFirstAvailableNode env s [] = (.error invalidArgErr, s) ∧
    forLeader env s [] = (.error invalidArgErr, s) :=
  ⟨rfl, rfl⟩

/-- Claim C1: when a candidate connects and either the queried member list
has no member with the reported leader id, or the leader member's derived
node name is not in the candidate set, `getLeaderClient` returns an error
that does not satisfy the retryable-connection test, and `forLeader`
returns exactly that error and that state immediately: the remaining
candidates and the accumulated retryable failures play no part in the
result. -/
theorem leader_inconsistency_fatal (env : Env) (s : GenState) (name : String)
    (allNodes : List String) (tmp : EtcdClient) (s1 : GenState) (ms : List Member)
    (htmp : forFirstAvailableNode env s [name] = (.ok tmp, s1))
    (hmem : env.membersOf tmp.endpoint = .ok ms)
    (hcase : ms.find? (fun m => m.id == tmp.leaderID) = none ∨
      ∃ mem, ms.find? (fun m => m.id == tmp.leaderID) = some mem ∧
        allNodes.contains (nodeNameFromMember mem) = false) :
    ∃ e s2, getLeaderClient env s name allNodes = (.error e, s2) ∧ e.isConn = false ∧
      ∀ (rest : List String) (errs : List Err),
        forLeaderLoop env allNodes s (name :: rest) errs = (.error e, s2) := by
  rcases hcase with hf | ⟨mem, hf, hout⟩
  · refine ⟨_, _, getLeaderClient_noLeaderMember env s name allNodes tmp s1 ms htmp hmem hf,
      isConn_msg _, fun rest errs => ?_⟩
    exact forLeaderLoop_fatal env allNodes s _ name rest errs _
      (getLeaderClient_noLeaderMember env s name allNodes tmp s1 ms htmp hmem hf)
      (isConn_msg _)
  · refine ⟨_, _, getLeaderClient_notCandidate env s name allNodes tmp s1 ms mem htmp hmem hf hout,
      isConn_msg _, fun rest errs => ?_⟩
    exact forLeaderLoop_fatal env allNodes s _ name rest errs _
      (getLeaderClient_notCandidate env s name allNodes tmp s1 ms mem htmp hmem hf hout)
      (isConn_msg _)

/-- Witness for C1: in `envNoLeaderMember`, candidate `A` connects but its
member list lacks the reported leader id 2, so the call fails fatally and
at once. -/
theorem leader_inconsistency_fatal_witness :
    ∃ e s2, getLeaderClient envNoLeaderMember initState "A" ["A"] = (.error e, s2) ∧
      e.isConn = false ∧
      ∀ (rest : List String) (errs : List Err),
        forLeaderLoop envNoLeaderMember ["A"] initState ("A" :: rest) errs =
          (.error e, s2) :=
  leader_inconsistency_fatal envNoLeaderMember initState "A" ["A"] ⟨0, "podA", 2⟩
    { etcdPodMap := some [⟨"A", "podA"⟩], nextHandle := 1, clientsetCalls := 2
      listCalls := 2, dialCalls := ["podA"], membersCalls := [], closes := [] }
    [⟨1, "X"⟩] rfl rfl (Or.inl rfl)

/-- Claim C2: a membership-query failure after a successful connect is
retryable — `getLeaderClient` returns an error passing the
retryable-connection test and `forLeader` records it and moves to the next
candidate — and in the three-candidate scenario (A without a proxy pod, B
connecting but failing the membership query, C connecting and reporting
itself leader) `forLeader` returns the fresh handle bound to C's pod and
no error. -/
theorem members_fail_retryable_and_scenario :
    (∀ (env : Env) (s : GenState) (name : String) (allNodes : List String)
      (tmp : EtcdClient) (s1 : GenState) (em : String),
      forFirstAvailableNode env s [name] = (.ok tmp, s1) →
      env.membersOf tmp.endpoint = .error em →
      ∃ e s2, getLeaderClient env s name allNodes = (.error e, s2) ∧ e.isConn = true ∧
        ∀ (rest : List String) (errs : List Err),
          forLeaderLoop env allNodes s (name :: rest) errs =
            forLeaderLoop env allNodes s2 rest (errs ++ [e])) ∧
    (forLeader envABC initState ["A", "B", "C"]).1 = .ok ⟨2, "podC", 7⟩ := by
  constructor
  · intro env s name allNodes tmp s1 em htmp hmem
    refine ⟨_, _, getLeaderClient_membersFail env s name allNodes tmp s1 em htmp hmem,
      aggPair_isConn _, fun rest errs => ?_⟩
    exact forLeaderLoop_retry env allNodes s _ name rest errs _
      (getLeaderClient_membersFail env s name allNodes tmp s1 em htmp hmem)
      (aggPair_isConn _)
  · simp [forLeader, forLeaderLoop, getLeaderClient, forFirstAvailableNode, firstAvailLoop,
      findEtcdProxyPod, createClient, clientMembers, closeClient, podLookup, mapLookup,
      envABC, initState, Err.isConn, nodeNameFromMember]

/-- Witness for C2: in the scenario environment, candidate `B` connects
and its membership query fails, which is classified retryable. -/
theorem members_fail_retryable_witness :
    ∃ e s2, getLeaderClient envABC initState "B" ["A", "B", "C"] = (.error e, s2) ∧
      e.isConn = true ∧
      ∀ (rest : List String) (errs : List Err),
        forLeaderLoop envABC ["A", "B", "C"] initState ("B" :: rest) errs =
          forLeaderLoop envABC ["A", "B", "C"] s2 rest (errs ++ [e]) :=
  members_fail_retryable_and_scenario.1 envABC initState "B" ["A", "B", "C"]
    ⟨0, "podB", 5⟩
    { etcdPodMap := some [⟨"B", "podB"⟩, ⟨"C", "podC"⟩], nextHandle := 1
      clientsetCalls := 2, listCalls := 2, dialCalls := ["podB"], membersCalls := []
      closes := [] }
    "members query failed" rfl rfl


/-- Claim C3: with the pod cache populated, if every candidate in `pre`
fails its per-candidate attempt and `winner` resolves and dials
successfully, `forFirstAvailableNode` on `pre ++ winner :: post` returns
the client dialed to the pod of `winner`, the earlier failures are recorded
rather than raised (the call still succeeds), and the result — value and
final state — is the same for every `post`, so candidates after the first
success are never attempted. -/
theorem first_available_in_order (env : Env) (s : GenState) (pods ps : List Pod)
    (pre post : List String) (winner wpod : String)
    (hcache : s.etcdPodMap = some pods) (hcs : env.newClientsetErr = none)
    (hlist : env.listPods = .ok ps)
    (hpre : ∀ n ∈ pre, candidateFails env pods n = true)
    (hwin : mapLookup pods winner = some wpod) (hdial : env.dial wpod = none) :
    ∃ cl s', forFirstAvailableNode env s (pre ++ winner :: post) = (.ok cl, s') ∧
      cl.endpoint = wpod ∧
      ∀ post' : List String,
        forFirstAvailableNode env s (pre ++ winner :: post') = (.ok cl, s') := by
  obtain ⟨cl, s', hep, hrun⟩ :=
    firstAvailLoop_skipAll_win env pods winner wpod hwin hdial pre hpre
      { s with clientsetCalls := s.clientsetCalls + 1, listCalls := s.listCalls + 1 } hcache
  refine ⟨cl, s', ?_, hep, fun post' => ?_⟩
  · rw [forFirstAvailableNode_entry env s _ ps (by simp) hcs hlist, hrun post []]
  · rw [forFirstAvailableNode_entry env s _ ps (by simp) hcs hlist, hrun post' []]

/-- Witness for C3: with the cache holding pods for `B` and `C`, candidate
`A` fails, `B` wins, and the result does not depend on what follows. -/
theorem first_available_in_order_witness :
    ∃ cl s', forFirstAvailableNode envABC
        { initState with etcdPodMap := some [⟨"B", "podB"⟩, ⟨"C", "podC"⟩] }
        (["A"] ++ "B" :: ["C"]) = (.ok cl, s') ∧
      cl.endpoint = "podB" ∧
      ∀ post' : List String,
        forFirstAvailableNode envABC
          { initState with etcdPodMap := some [⟨"B", "podB"⟩, ⟨"C", "podC"⟩] }
          (["A"] ++ "B" :: post') = (.ok cl, s') :=
  first_available_in_order envABC _ [⟨"B", "podB"⟩, ⟨"C", "podC"⟩]
    [⟨"B", "podB"⟩, ⟨"C", "podC"⟩] ["A"] ["C"] "B" "podB" rfl rfl rfl
    (by intro n hn; simp at hn; subst hn; rfl) rfl rfl

/-- Claim C4: once `getLeaderClient` has opened its temporary
membership-query handle, every exit path — retryable failure, fatal
failure, success — closes exactly that handle exactly once; on success the
returned handle is the result of a fresh dial restricted to the leader's
node, with a handle identity distinct from the temporary one. -/
theorem temp_handle_closed_once (env : Env) (s : GenState) (name : String)
    (allNodes : List String) (tmp : EtcdClient) (s1 : GenState)
    (htmp : forFirstAvailableNode env s [name] = (.ok tmp, s1)) :
    ∃ r s2, getLeaderClient env s name allNodes = (r, s2) ∧
      s2.closes = s.closes ++ [tmp.id] ∧
      ∀ cl, r = .ok cl → cl.id = tmp.id + 1 ∧ cl.id ≠ tmp.id ∧
        ∃ ms mem, env.membersOf tmp.endpoint = .ok ms ∧
          ms.find? (fun m => m.id == tmp.leaderID) = some mem ∧
          allNodes.contains (nodeNameFromMember mem) = true ∧
          (forFirstAvailableNode env
            { s1 with membersCalls := s1.membersCalls ++ [tmp.id] }
            [nodeNameFromMember mem]).1 = .ok cl := by
  have hfr := forFirstAvailableNode_frame env s [name]
  rw [htmp] at hfr
  have hclo1 : s1.closes = s.closes := hfr.1
  have hnh1 : s1.nextHandle = tmp.id + 1 := (hfr.2.2.1 tmp rfl).2
  cases hm : env.membersOf tmp.endpoint with
  | error em =>
    refine ⟨_, _, getLeaderClient_membersFail env s name allNodes tmp s1 em htmp hm,
      ?_, fun cl hcl => absurd hcl (by simp)⟩
    simp [closeClient, hclo1]
  | ok ms =>
    cases hfind : ms.find? (fun m => m.id == tmp.leaderID) with
    | none =>
      refine ⟨_, _, getLeaderClient_noLeaderMember env s name allNodes tmp s1 ms htmp hm hfind,
        ?_, fun cl hcl => absurd hcl (by simp)⟩
      simp [closeClient, hclo1]
    | some mem =>
      cases hin : allNodes.contains (nodeNameFromMember mem) with
      | false =>
        refine ⟨_, _,
          getLeaderClient_notCandidate env s name allNodes tmp s1 ms mem htmp hm hfind hin,
          ?_, fun cl hcl => absurd hcl (by simp)⟩
        simp [closeClient, hclo1]
      | true =>
        rcases hres : forFirstAvailableNode env
            { s1 with membersCalls := s1.membersCalls ++ [tmp.id] }
            [nodeNameFromMember mem] with ⟨r2, s3⟩
        have hfr2 := forFirstAvailableNode_frame env
          { s1 with membersCalls := s1.membersCalls ++ [tmp.id] } [nodeNameFromMember mem]
        rw [hres] at hfr2
        refine ⟨r2, closeClient s3 tmp, ?_, ?_, ?_⟩
        · rw [getLeaderClient_redial env s name allNodes tmp s1 ms mem htmp hm hfind hin]
          simp only [hres]
        · simp only [closeClient]
          rw [hfr2.1]
          simp [hclo1]
        · intro cl hcl
          subst hcl
          have hid : cl.id = tmp.id + 1 := by
            have := (hfr2.2.2.1 cl rfl).1
            simpa [hnh1] using this
          refine ⟨hid, by omega, ms, mem, rfl, hfind, hin, ?_⟩
          rw [hres]

/-- Witness for C4: in `envSelfLeader`, the single candidate `A` reports
itself leader; the temporary handle 0 is closed and the returned handle is
the fresh dial 1. -/
theorem temp_handle_closed_once_witness :
    ∃ r s2, getLeaderClient envSelfLeader initState "A" ["A"] = (r, s2) ∧
      s2.closes = ([] : List Nat) ++ [0] ∧
      ∀ cl, r = .ok cl → cl.id = 0 + 1 ∧ cl.id ≠ 0 ∧
        ∃ ms mem, envSelfLeader.membersOf "podA" = .ok ms ∧
          ms.find? (fun m => m.id == 3) = some mem ∧
          (["A"] : List String).contains (nodeNameFromMember mem) = true ∧
          (forFirstAvailableNode envSelfLeader
            { etcdPodMap := some [⟨"A", "podA"⟩], nextHandle := 1, clientsetCalls := 2
              listCalls := 2, dialCalls := ["podA"], membersCalls := [0], closes := [] }
            [nodeNameFromMember mem]).1 = .ok cl :=
  temp_handle_closed_once envSelfLeader initState "A" ["A"] ⟨0, "podA", 3⟩
    { etcdPodMap := some [⟨"A", "podA"⟩], nextHandle := 1, clientsetCalls := 2
      listCalls := 2, dialCalls := ["podA"], membersCalls := [], closes := [] }
    rfl

/-- Claim C5: with a successful but empty proxy-pod listing, every
cache-building resolve fails with the inventory error before any dial,
and `forFirstAvailableNode` fails with every recorded per-candidate cause
being that inventory error, its dial and membership-query logs unchanged —
no consensus-client call is ever made. -/
theorem empty_inventory_fatal (env : Env)
    (hcs : env.newClientsetErr = none) (hl : env.listPods = .ok []) :
    (∀ (s : GenState) (n : String), s.etcdPodMap = none →
      findEtcdProxyPod env s n =
        (.error emptyInventoryErr,
         { s with clientsetCalls := s.clientsetCalls + 1, listCalls := s.listCalls + 1 })) ∧
    (∀ (s : GenState) (names : List String), names ≠ [] → s.etcdPodMap = none →
      ∃ s', forFirstAvailableNode env s names =
          (.error (.wrap connectAnyNodeLabel
            (.aggregate (List.replicate names.length emptyInventoryErr))), s') ∧
        s'.dialCalls = s.dialCalls ∧ s'.membersCalls = s.membersCalls) := by
  refine ⟨fun s n h => findPod_emptyInv env s n h hcs hl, fun s names hne h => ?_⟩
  obtain ⟨s', hrun, _, h2, h3, _⟩ := firstAvailLoop_emptyInv env hcs hl names
    { s with clientsetCalls := s.clientsetCalls + 1, listCalls := s.listCalls + 1 } [] h
  refine ⟨s', ?_, by simpa using h2, by simpa using h3⟩
  rw [forFirstAvailableNode_entry env s names [] hne hcs hl, hrun]
  simp

/-- Witness for C5: with the empty-inventory environment, a resolve fails
with the inventory error and a two-candidate call fails with two copies of
it, no dial and no membership query performed. -/
theorem empty_inventory_fatal_witness :
    findEtcdProxyPod envEmptyInventory initState "A" =
      (.error emptyInventoryErr,
       { initState with clientsetCalls := 1, listCalls := 1 }) ∧
    (∃ s', forFirstAvailableNode envEmptyInventory initState ["A", "B"] =
        (.error (.wrap connectAnyNodeLabel
          (.aggregate (List.replicate 2 emptyInventoryErr))), s') ∧
      s'.dialCalls = initState.dialCalls ∧ s'.membersCalls = initState.membersCalls) :=
  ⟨(empty_inventory_fatal envEmptyInventory rfl rfl).1 initState "A" rfl,
   (empty_inventory_fatal envEmptyInventory rfl rfl).2 initState ["A", "B"]
     (by simp) rfl⟩


/-- Counterexample for C7: at a concrete failing run both exhaustion
errors carry the code's wrap labels, and those labels differ from the
labels quoted in the claim ("could not establish a connection to any
node." and "could not establish a connection to the etcd leader."). -/
theorem connect_labels_counterexample :
    (∃ e s', forFirstAvailableNode envDialFail initState ["A"] = (.error e, s') ∧
      e.wrapLabel = some connectAnyNodeLabel) ∧
    (∃ e s', forLeader envDialFail initState ["A"] = (.error e, s') ∧
      e.wrapLabel = some connectLeaderLabel) ∧
    connectAnyNodeLabel ≠ "could not establish a connection to any node." ∧
    connectLeaderLabel ≠ "could not establish a connection to the etcd leader." := by
  refine ⟨⟨Err.wrap connectAnyNodeLabel (.aggregate [.msg "connection refused"]),
      { etcdPodMap := some [⟨"A", "podA"⟩], nextHandle := 0, clientsetCalls := 2
        listCalls := 2, dialCalls := ["podA"], membersCalls := [], closes := [] },
      ?_, rfl⟩,
    ⟨Err.wrap connectLeaderLabel
        (.aggregate [.aggregate
          [.wrap connectAnyNodeLabel (.aggregate [.msg "connection refused"]),
           .etcdNodeConnection]]),
      { etcdPodMap := some [⟨"A", "podA"⟩], nextHandle := 0, clientsetCalls := 2
        listCalls := 2, dialCalls := ["podA"], membersCalls := [], closes := [] },
      ?_, rfl⟩,
    by decide, by decide⟩
  · simp [forFirstAvailableNode, firstAvailLoop, findEtcdProxyPod, createClient, podLookup,
      mapLookup, envDialFail, initState]
  · simp [forLeader, forLeaderLoop, getLeaderClient, forFirstAvailableNode, firstAvailLoop,
      findEtcdProxyPod, createClient, clientMembers, closeClient, podLookup, mapLookup,
      envDialFail, initState, Err.isConn]

/-- Claim C7 (amended labels): if every candidate fails retryably, each
resolution operation returns one wrapped aggregate holding the recorded
per-candidate causes in candidate order, none discarded — labeled
"could not establish a connection to any etcd node" for
`forFirstAvailableNode` and "could not establish a connection to the etcd
leader" for `forLeader` (the code's strings). -/
theorem exhaustion_aggregates_all_causes (env : Env) (s : GenState) (pods ps : List Pod)
    (names : List String) (errOf : String → Err)
    (hcache : s.etcdPodMap = some pods) (hcs : env.newClientsetErr = none)
    (hlist : env.listPods = .ok ps) (hne : names ≠ [])
    (hfail : ∀ n ∈ names, candidateFails env pods n = true)
    (hret : ∀ n ∈ names, ∀ s', s'.etcdPodMap = some pods →
      ∃ s'', getLeaderClient env s' n names = (.error (errOf n), s'') ∧
        s''.etcdPodMap = some pods)
    (hconn : ∀ n ∈ names, (errOf n).isConn = true) :
    (∃ s', forFirstAvailableNode env s names =
        (.error (.wrap connectAnyNodeLabel
          (.aggregate (names.map (candErr env pods)))), s')) ∧
    (∃ s', forLeader env s names =
        (.error (.wrap connectLeaderLabel (.aggregate (names.map errOf))), s')) := by
  constructor
  · obtain ⟨s', hrun, _⟩ := firstAvailLoop_all_fail env pods names hfail
      { s with clientsetCalls := s.clientsetCalls + 1, listCalls := s.listCalls + 1 }
      [] hcache
    refine ⟨s', ?_⟩
    rw [forFirstAvailableNode_entry env s names ps hne hcs hlist, hrun]
    simp
  · obtain ⟨s', hrun, _⟩ :=
      forLeaderLoop_all_retry env names pods errOf names hret hconn s [] hcache
    refine ⟨s', ?_⟩
    rw [forLeader_entry env s names hne, hrun]
    simp

/-- Witness for C7: one candidate whose dial fails; both aggregates carry
exactly its recorded cause. -/
theorem exhaustion_aggregates_witness :
    (∃ s', forFirstAvailableNode envDialFail
        { initState with etcdPodMap := some [⟨"A", "podA"⟩] } ["A"] =
        (.error (.wrap connectAnyNodeLabel
          (.aggregate (["A"].map (candErr envDialFail [⟨"A", "podA"⟩])))), s')) ∧
    (∃ s', forLeader envDialFail
        { initState with etcdPodMap := some [⟨"A", "podA"⟩] } ["A"] =
        (.error (.wrap connectLeaderLabel
          (.aggregate (["A"].map (leaderConnFailErr envDialFail [⟨"A", "podA"⟩])))), s')) :=
  exhaustion_aggregates_all_causes envDialFail
    { initState with etcdPodMap := some [⟨"A", "podA"⟩] }
    [⟨"A", "podA"⟩] [⟨"A", "podA"⟩] ["A"]
    (leaderConnFailErr envDialFail [⟨"A", "podA"⟩])
    rfl rfl rfl (by simp)
    (by intro n hn; simp at hn; subst hn; rfl)
    (by
      intro n hn s' hs'
      simp at hn
      subst hn
      obtain ⟨s1, heq, hc1, _⟩ := getLeaderClient_connFail_cached envDialFail s'
        [⟨"A", "podA"⟩] "A" ["A"] [⟨"A", "podA"⟩] hs' rfl rfl rfl
      exact ⟨s1, heq, hc1⟩)
    (fun n _ => leaderConnFailErr_isConn envDialFail [⟨"A", "podA"⟩] n)

/-- Claim C8: the pod cache, once populated, survives any sequence of
public operations unchanged; a populated cache answers resolves without
touching the collaborators; a per-node miss yields the not-found error,
which differs from all three build-failure errors; and the
`forFirstAvailableNode` loop records a miss and moves on to the next
candidate instead of aborting. -/
theorem pod_cache_immutable_and_miss_retryable :
    (∀ (env : Env) (s : GenState) (m : List Pod) (ops : List Op),
      s.etcdPodMap = some m → (runOps env s ops).etcdPodMap = some m) ∧
    (∀ (env : Env) (s : GenState) (pods : List Pod) (n : String),
      s.etcdPodMap = some pods → findEtcdProxyPod env s n = podLookup s pods n) ∧
    (∀ (env : Env) (s : GenState) (pods : List Pod) (n : String),
      s.etcdPodMap = some pods → mapLookup pods n = none →
      findEtcdProxyPod env s n = (.error (notFoundErr n), s)) ∧
    (∀ (n e : String), notFoundErr n ≠ emptyInventoryErr ∧
      notFoundErr n ≠ clientsetErr e ∧ notFoundErr n ≠ listPodsErr e) ∧
    (∀ (env : Env) (s : GenState) (pods : List Pod) (n : String)
      (rest : List String) (errs : List Err),
      s.etcdPodMap = some pods → mapLookup pods n = none →
      firstAvailLoop env s (n :: rest) errs =
        firstAvailLoop env s rest (errs ++ [notFoundErr n])) := by
  refine ⟨fun env s m ops h => runOps_cache_mono env m ops s h,
    fun env s pods n h => findPod_cached env s pods n h,
    fun env s pods n h hm => ?_,
    fun n e => ⟨notFound_ne_emptyInv n, notFound_ne_wrap n _ _, notFound_ne_wrap n _ _⟩,
    fun env s pods n rest errs h hm => ?_⟩
  · rw [findPod_cached env s pods n h, podLookup_none s pods n hm]
  · rw [firstAvailLoop_cons, findPod_cached env s pods n h, podLookup_none s pods n hm]

/-- Witness for C8: a populated cache survives a mixed operation sequence,
and a resolve for a node with no pod fails with the not-found error
without touching the state. -/
theorem pod_cache_witness :
    (runOps envABC { initState with etcdPodMap := some [⟨"B", "podB"⟩] }
      [.findPod "A", .leader ["A", "B"], .firstAvail ["Z"]]).etcdPodMap =
        some [⟨"B", "podB"⟩] ∧
    findEtcdProxyPod envABC { initState with etcdPodMap := some [⟨"B", "podB"⟩] } "A" =
      (.error (notFoundErr "A"), { initState with etcdPodMap := some [⟨"B", "podB"⟩] }) :=
  ⟨pod_cache_immutable_and_miss_retryable.1 envABC
      { initState with etcdPodMap := some [⟨"B", "podB"⟩] } [⟨"B", "podB"⟩]
      [.findPod "A", .leader ["A", "B"], .firstAvail ["Z"]] rfl,
   pod_cache_immutable_and_miss_retryable.2.2.1 envABC
      { initState with etcdPodMap := some [⟨"B", "podB"⟩] } [⟨"B", "podB"⟩] "A" rfl rfl⟩


/-- Claim C9: once the leader member is identified and its node confirmed
to be a candidate, a failure of the second dial is returned by
`getLeaderClient` without the retryable connection marker (`isConn` is
false on it), so `forLeader` returns that error at once instead of
advancing to the next candidate. -/
theorem leader_redial_failure_fatal (env : Env) (s : GenState) (pods ps : List Pod)
    (name npod : String) (allNodes : List String) (ms : List Member) (mem : Member)
    (hcache : s.etcdPodMap = some pods) (hcs : env.newClientsetErr = none)
    (hlist : env.listPods = .ok ps)
    (hpod : mapLookup pods name = some npod) (hdialok : env.dial npod = none)
    (hmem : env.membersOf npod = .ok ms)
    (hfind : ms.find? (fun m => m.id == env.leaderIDOf npod) = some mem)
    (hin : allNodes.contains (nodeNameFromMember mem) = true)
    (hfail : candidateFails env pods (nodeNameFromMember mem) = true) :
    ∃ s2, getLeaderClient env s name allNodes =
        (.error (.wrap connectAnyNodeLabel
          (.aggregate [candErr env pods (nodeNameFromMember mem)])), s2) ∧
      (Err.wrap connectAnyNodeLabel
        (.aggregate [candErr env pods (nodeNameFromMember mem)])).isConn = false ∧
      ∀ (rest : List String) (errs : List Err),
        forLeaderLoop env allNodes s (name :: rest) errs =
          (.error (.wrap connectAnyNodeLabel
            (.aggregate [candErr env pods (nodeNameFromMember mem)])), s2) := by
  have htmp : forFirstAvailableNode env s [name] =
      (.ok ⟨s.nextHandle, npod, env.leaderIDOf npod⟩,
       { s with
         clientsetCalls := s.clientsetCalls + 1, listCalls := s.listCalls + 1,
         dialCalls := s.dialCalls ++ [npod], nextHandle := s.nextHandle + 1 }) := by
    rw [forFirstAvailableNode_entry env s [name] ps (by simp) hcs hlist]
    exact firstAvailLoop_win env
      { s with clientsetCalls := s.clientsetCalls + 1, listCalls := s.listCalls + 1 }
      pods name npod hcache hpod hdialok [] []
  have hredial := getLeaderClient_redial env s name allNodes
    ⟨s.nextHandle, npod, env.leaderIDOf npod⟩
    { s with
      clientsetCalls := s.clientsetCalls + 1, listCalls := s.listCalls + 1,
      dialCalls := s.dialCalls ++ [npod], nextHandle := s.nextHandle + 1 }
    ms mem htmp hmem hfind hin
  obtain ⟨s'', hrun, _⟩ := firstAvailLoop_all_fail env pods [nodeNameFromMember mem]
    (by simpa using hfail)
    { s with
      clientsetCalls := s.clientsetCalls + 1 + 1, listCalls := s.listCalls + 1 + 1,
      dialCalls := s.dialCalls ++ [npod], nextHandle := s.nextHandle + 1,
      membersCalls := s.membersCalls ++ [s.nextHandle] }
    [] hcache
  have hres : forFirstAvailableNode env
      { s with
        clientsetCalls := s.clientsetCalls + 1, listCalls := s.listCalls + 1,
        dialCalls := s.dialCalls ++ [npod], nextHandle := s.nextHandle + 1,
        membersCalls := s.membersCalls ++ [s.nextHandle] }
      [nodeNameFromMember mem] =
      (.error (.wrap connectAnyNodeLabel
        (.aggregate [candErr env pods (nodeNameFromMember mem)])), s'') := by
    rw [forFirstAvailableNode_entry env _ [nodeNameFromMember mem] ps (by simp) hcs hlist]
    rw [hrun]
    simp
  have hisconn : (Err.wrap connectAnyNodeLabel
      (.aggregate [candErr env pods (nodeNameFromMember mem)])).isConn = false := by
    rw [isConn_wrap, isConn_agg_cons, isConn_agg_nil, candErr_isConn]
    rfl
  have hglc : getLeaderClient env s name allNodes =
      (.error (.wrap connectAnyNodeLabel
        (.aggregate [candErr env pods (nodeNameFromMember mem)])),
       closeClient s'' ⟨s.nextHandle, npod, env.leaderIDOf npod⟩) := by
    rw [hredial]
    simp only [hres]
  exact ⟨closeClient s'' ⟨s.nextHandle, npod, env.leaderIDOf npod⟩, hglc, hisconn,
    fun rest errs => forLeaderLoop_fatal env allNodes s _ name rest errs _ hglc hisconn⟩

/-- Witness for C9: candidate `A` reports leader member 3 on node `B`,
`B` is a candidate, and the dial to the pod of `B` fails; the call fails
fatally with the second-dial error. -/
theorem leader_redial_failure_fatal_witness :
    ∃ s2, getLeaderClient envLeaderDialFail
        { initState with etcdPodMap := some [⟨"A", "podA"⟩, ⟨"B", "podB"⟩] }
        "A" ["A", "B"] =
        (.error (.wrap connectAnyNodeLabel
          (.aggregate [candErr envLeaderDialFail [⟨"A", "podA"⟩, ⟨"B", "podB"⟩]
            (nodeNameFromMember ⟨3, "B"⟩)])), s2) ∧
      (Err.wrap connectAnyNodeLabel
        (.aggregate [candErr envLeaderDialFail [⟨"A", "podA"⟩, ⟨"B", "podB"⟩]
          (nodeNameFromMember ⟨3, "B"⟩)])).isConn = false ∧
      ∀ (rest : List String) (errs : List Err),
        forLeaderLoop envLeaderDialFail ["A", "B"]
          { initState with etcdPodMap := some [⟨"A", "podA"⟩, ⟨"B", "podB"⟩] }
          ("A" :: rest) errs =
          (.error (.wrap connectAnyNodeLabel
            (.aggregate [candErr envLeaderDialFail [⟨"A", "podA"⟩, ⟨"B", "podB"⟩]
              (nodeNameFromMember ⟨3, "B"⟩)])), s2) :=
  leader_redial_failure_fatal envLeaderDialFail
    { initState with etcdPodMap := some [⟨"A", "podA"⟩, ⟨"B", "podB"⟩] }
    [⟨"A", "podA"⟩, ⟨"B", "podB"⟩] [⟨"A", "podA"⟩, ⟨"B", "podB"⟩]
    "A" "podA" ["A", "B"] [⟨3, "B"⟩] ⟨3, "B"⟩
    rfl rfl rfl rfl rfl rfl rfl rfl rfl

/-- Claim C10: every non-empty `forFirstAvailableNode` call performs its
own clientset construction and pod listing — exactly one more of each even
when the cache is already populated; a failure of either aborts the call
with that error despite the populated cache; the content of that listing
is discarded (the result is the same under any two successful listings);
and inside `forLeader` the listing is repeated once per candidate probed. -/
theorem fresh_listing_every_call :
    (∀ (env : Env) (s : GenState) (pods ps : List Pod) (ns : List String),
      s.etcdPodMap = some pods → env.newClientsetErr = none → env.listPods = .ok ps →
      ns ≠ [] →
      (forFirstAvailableNode env s ns).2.listCalls = s.listCalls + 1 ∧
      (forFirstAvailableNode env s ns).2.clientsetCalls = s.clientsetCalls + 1) ∧
    (∀ (env : Env) (s : GenState) (m : List Pod) (ns : List String) (e : String),
      s.etcdPodMap = some m → env.newClientsetErr = none → env.listPods = .error e →
      ns ≠ [] →
      forFirstAvailableNode env s ns =
        (.error (listPodsErr e),
         { s with clientsetCalls := s.clientsetCalls + 1, listCalls := s.listCalls + 1 })) ∧
    (∀ (env : Env) (s : GenState) (m : List Pod) (ns : List String) (e : String),
      s.etcdPodMap = some m → env.newClientsetErr = some e → ns ≠ [] →
      forFirstAvailableNode env s ns =
        (.error (clientsetErr e), { s with clientsetCalls := s.clientsetCalls + 1 })) ∧
    (∀ (env : Env) (s : GenState) (pods : List Pod) (ns : List String) (ps ps' : List Pod),
      s.etcdPodMap = some pods →
      forFirstAvailableNode { env with listPods := .ok ps } s ns =
        forFirstAvailableNode { env with listPods := .ok ps' } s ns) ∧
    (∀ (env : Env) (s : GenState) (pods ps : List Pod) (names : List String),
      s.etcdPodMap = some pods → env.newClientsetErr = none → env.listPods = .ok ps →
      names ≠ [] → (∀ n ∈ names, candidateFails env pods n = true) →
      (forLeader env s names).2.listCalls = s.listCalls + names.length) := by
  refine ⟨fun env s pods ps ns hcache hcs hl hne =>
      forFirstAvailableNode_counts env s pods ps ns hcache hcs hl hne,
    fun env s m ns e _ hcs hl hne => forFirstAvailableNode_listErr env s ns e hne hcs hl,
    fun env s m ns e _ hcs hne => forFirstAvailableNode_csErr env s ns e hne hcs,
    fun env s pods ns ps ps' h => forFirstAvailableNode_ignores_listing env s pods ns ps ps' h,
    fun env s pods ps names hcache hcs hl hne hall => ?_⟩
  obtain ⟨s', hrun, _, hl', _⟩ :=
    forLeaderLoop_all_connFail env names pods ps hcs hl names hall s [] hcache
  rw [forLeader_entry env s names hne, hrun]
  exact hl'

/-- Witness for C10: with a populated cache, a one-candidate
`forFirstAvailableNode` call still performs one fresh listing, and a
one-candidate `forLeader` call performs one listing per candidate. -/
theorem fresh_listing_every_call_witness :
    ((forFirstAvailableNode envDialFail
        { initState with etcdPodMap := some [⟨"A", "podA"⟩] } ["A"]).2.listCalls = 0 + 1 ∧
     (forFirstAvailableNode envDialFail
        { initState with etcdPodMap := some [⟨"A", "podA"⟩] } ["A"]).2.clientsetCalls =
       0 + 1) ∧
    (forLeader envDialFail
        { initState with etcdPodMap := some [⟨"A", "podA"⟩] } ["A"]).2.listCalls =
      0 + (["A"] : List String).length :=
  ⟨fresh_listing_every_call.1 envDialFail
      { initState with etcdPodMap := some [⟨"A", "podA"⟩] }
      [⟨"A", "podA"⟩] [⟨"A", "podA"⟩] ["A"] rfl rfl rfl (by simp),
   fresh_listing_every_call.2.2.2.2 envDialFail
      { initState with etcdPodMap := some [⟨"A", "podA"⟩] }
      [⟨"A", "podA"⟩] [⟨"A", "podA"⟩] ["A"] rfl rfl rfl (by simp)
      (by intro n hn; simp at hn; subst hn; rfl)⟩

end EtcdGen
